import Mathlib

/-!
Shallow embedding of the emu6502 core (src/bus.rs, src/cpu.rs,
src/instruction.rs) in Lean 4.

Machine integers are modelled as `Nat` carrying their numeric value.
Rust's plain arithmetic operators on `u8`/`u16` (`+`, `-`, `+=`, `-=`)
have panicking overflow semantics under debug assertions (RFC 560, the
default cargo profile), so they are embedded as checked operations
returning `Option Nat` (`none` = panic).  The source's explicit
`overflowing_add` / `overflowing_sub` calls wrap modulo 256 and are
embedded as total modular arithmetic.  All other panics of the source
(bus lookup miss, unaligned 16-bit access, invalid opcode byte,
unimplemented opcode identity, invalid addressing mode, out-of-bounds
backend access) are likewise embedded as `none`.
-/

/-- Checked 16-bit addition: value of Rust `a + b` on `u16`, `none` on
overflow (debug-assertions panic). -/
def chkAdd16 (a b : Nat) : Option Nat :=
  if a + b ≤ 0xFFFF then some (a + b) else none

/-- Checked 8-bit subtraction: value of Rust `a - b` on `u8`, `none` on
underflow (debug-assertions panic). -/
def chkSub8 (a b : Nat) : Option Nat :=
  if b ≤ a then some (a - b) else none

/-- Wrapping 8-bit addition: Rust `a.overflowing_add(b).0` on `u8`. -/
def wrapAdd8 (a b : Nat) : Nat :=
  (a % 0x100 + b % 0x100) % 0x100

/-- Wrapping 8-bit subtraction: Rust `a.overflowing_sub(b).0` on `u8`
(two's-complement wraparound). -/
def wrapSub8 (a b : Nat) : Nat :=
  (a % 0x100 + (0x100 - b % 0x100)) % 0x100

/-- Value of the Rust cast chain `op as u8 as i8 as i16 as u16`:
sign-extension of the low byte of `op` to 16 bits. -/
def signExt8 (op : Nat) : Nat :=
  if op % 0x100 < 0x80 then op % 0x100 else 0xFF00 + op % 0x100

/-- The `Backend` trait of src/bus.rs: a fixed size plus byte read/write
at a local offset.  Reads and writes may fail (`none` models a panic in
the backend, e.g. an out-of-bounds array index in the RAM backend);
`write` returns the backend's updated state. -/
class Backend (β : Type) where
  size : β → Nat
  read : β → Nat → Option Nat
  write : β → Nat → Nat → Option β

/-- The `BusEntry` struct of src/bus.rs.  The Rust field `end` is named
`endAddr` here (`end` is a Lean keyword). -/
structure BusEntry (β : Type) where
  backend : β
  name : String
  start : Nat
  endAddr : Nat

namespace BusEntry

/-- `BusEntry::new` of src/bus.rs: queries the backend's size once and
stores `end = start + size` (a checked `u16` addition). -/
def new [Backend β] (backend : β) (name : String) (start : Nat) :
    Option (BusEntry β) :=
  let size := Backend.size backend
  (chkAdd16 start size).map fun e =>
    { backend := backend, name := name, start := start, endAddr := e }

/-- `BusEntry::read`: delegate to the backend at offset `addr - start`.
All callers establish `start ≤ addr`, matching the `u16` subtraction. -/
def read [Backend β] (entry : BusEntry β) (addr : Nat) : Option Nat :=
  Backend.read entry.backend (addr - entry.start)

/-- `BusEntry::write`: delegate to the backend at offset `addr - start`. -/
def write [Backend β] (entry : BusEntry β) (addr : Nat) (value : Nat) :
    Option (BusEntry β) :=
  (Backend.write entry.backend (addr - entry.start) value).map fun b =>
    { entry with backend := b }

/-- The containment test of `Bus::backend`: `entry.start <= addr && addr <= entry.end`. -/
def contains (entry : BusEntry β) (addr : Nat) : Bool :=
  entry.start ≤ addr && addr ≤ entry.endAddr

end BusEntry

/-- The `Bus` struct of src/bus.rs: an ordered list of entries, first
match in insertion order wins. -/
structure Bus (β : Type) where
  entries : List (BusEntry β)

namespace Bus

/-- `Bus::new`. -/
def new : Bus β := ⟨[]⟩

/-- `Bus::attach`: appends the entry. -/
def attach (bus : Bus β) (entry : BusEntry β) : Bus β :=
  ⟨bus.entries ++ [entry]⟩

/-- `Bus::backend`: linear scan for the first entry containing `addr`;
`none` models the "No backend for address" panic. -/
def backend (bus : Bus β) (addr : Nat) : Option (BusEntry β) :=
  bus.entries.find? (fun e => e.contains addr)

/-- `Bus::read`: look up the owning entry, delegate. -/
def read [Backend β] (bus : Bus β) (addr : Nat) : Option Nat :=
  (bus.backend addr).bind fun entry => entry.read addr

/-- `Bus::read_u16`: panics ("Unaligned 16-bit read at end of address
range") when `addr` equals the entry's `end` field; otherwise composes
the two bytes little-endian.  `addr + 1` is a checked `u16` addition. -/
def read_u16 [Backend β] (bus : Bus β) (addr : Nat) : Option Nat := do
  let entry ← bus.backend addr
  if addr = entry.endAddr then
    none
  else do
    let lo ← entry.read addr
    let a1 ← chkAdd16 addr 1
    let hi ← entry.read a1
    some (lo ||| (hi <<< 8))

/-- Helper for `Bus::backend_mut`-based writes: replaces the first entry
containing `addr` by the result of writing through it, `none` when no
entry contains `addr` or the backend write fails. -/
def writeEntries [Backend β] :
    List (BusEntry β) → Nat → Nat → Option (List (BusEntry β))
  | [], _, _ => none
  | e :: rest, addr, value =>
    if e.contains addr then
      (e.write addr value).map fun e2 => e2 :: rest
    else
      (writeEntries rest addr value).map fun r => e :: r

/-- `Bus::write`: look up the owning entry mutably, delegate. -/
def write [Backend β] (bus : Bus β) (addr : Nat) (value : Nat) :
    Option (Bus β) :=
  (writeEntries bus.entries addr value).map fun es => ⟨es⟩

/-- Helper for `Bus::write_u16`: two successive writes through the same
entry (low byte at `addr`, high byte at `addr + 1`) after the
end-of-range check, updated in place in the entry list. -/
def writeEntriesU16 [Backend β] :
    List (BusEntry β) → Nat → Nat → Option (List (BusEntry β))
  | [], _, _ => none
  | e :: rest, addr, value =>
    if e.contains addr then
      if addr = e.endAddr then
        none
      else do
        let e1 ← e.write addr (value % 0x100)
        let a1 ← chkAdd16 addr 1
        let e2 ← e1.write a1 ((value >>> 8) % 0x100)
        some (e2 :: rest)
    else
      (writeEntriesU16 rest addr value).map fun r => e :: r

/-- `Bus::write_u16`: panics when `addr` equals the owning entry's `end`
field; otherwise writes `value as u8` at `addr` and `(value >> 8) as u8`
at `addr + 1` through the same entry. -/
def write_u16 [Backend β] (bus : Bus β) (addr : Nat) (value : Nat) :
    Option (Bus β) :=
  (writeEntriesU16 bus.entries addr value).map fun es => ⟨es⟩

/-- `Bus::clear`. -/
def clear (_ : Bus β) : Bus β := ⟨[]⟩

end Bus

/-- The `StatusBit` enum of src/cpu.rs with its discriminant values. -/
inductive StatusBit where
  | Carry | Zero | Interrupt | Decimal | Break | Overflow | Negative
deriving DecidableEq

/-- Discriminant of a `StatusBit` (the Rust `bit as u8`). -/
def StatusBit.toNat : StatusBit → Nat
  | .Carry => 0
  | .Zero => 1
  | .Interrupt => 2
  | .Decimal => 3
  | .Break => 4
  | .Overflow => 5
  | .Negative => 6

/-- Opcode identities handled by `Cpu::execute` in src/cpu.rs.  The full
`OpId` enum lives in the opcode module, which is not among the provided
source files; its constructors are reconstructed from their uses in
src/cpu.rs.  `UNIMPL` stands for every identity that reaches the
catch-all panic arm of the dispatch match. -/
inductive OpId where
  | ADC | AND | ASL | BCC | BCS | BEQ | BIT | BMI | BNE | BPL | BRK
  | CLC | CLD | CLI | CMP | CPX | CPY | DEC | DEX | DEY | JMP
  | UNIMPL
deriving DecidableEq

/-- The `Addressing` enum of the opcode module, reconstructed from its
uses in src/cpu.rs and src/instruction.rs. -/
inductive Addressing where
  | Absolute | AbsoluteX | AbsoluteY | Accumulator | Immediate
  | Indirect | IndirectX | IndirectY | Relative
  | ZeroPage | ZeroPageX | ZeroPageY
deriving DecidableEq

/-- The `OpCode` struct of the opcode module: identity, addressing mode
and total byte length, as used by src/cpu.rs. -/
structure OpCode where
  id : OpId
  addressing : Addressing
  bytes : Nat

/-- The `Instruction` struct of src/instruction.rs: a decoded opcode
plus its raw 16-bit operand. -/
structure Instruction where
  opcode : OpCode
  operand : Nat

/-- `STACK_BASE` of src/cpu.rs. -/
def STACK_BASE : Nat := 0x0100

/-- The `Cpu` struct of src/cpu.rs, generic over the backend type
attached to its bus. -/
structure Cpu (β : Type) where
  pc : Nat
  ac : Nat
  x : Nat
  y : Nat
  sp : Nat
  sr : Nat
  bus : Bus β

namespace Cpu

/-- `Cpu::new`: all registers zeroed, empty bus. -/
def new : Cpu β :=
  { pc := 0, ac := 0, x := 0, y := 0, sp := 0, sr := 0, bus := Bus.new }

/-- `Cpu::attach_backend`. -/
def attach_backend (c : Cpu β) (entry : BusEntry β) : Cpu β :=
  { c with bus := c.bus.attach entry }

/-- `Cpu::status_u8`: `(sr >> bit) & 1`. -/
def status_u8 (c : Cpu β) (bit : StatusBit) : Nat :=
  (c.sr >>> bit.toNat) &&& 1

/-- `Cpu::status`: the bit as a boolean. -/
def status (c : Cpu β) (bit : StatusBit) : Bool :=
  c.status_u8 bit == 1

/-- `Cpu::set_status`: `sr |= 1 << bit` or `sr &= !(1 << bit)` (the
complement is taken within 8 bits, as on `u8`). -/
def set_status (c : Cpu β) (bit : StatusBit) (state : Bool) : Cpu β :=
  if state then
    { c with sr := c.sr ||| (1 <<< bit.toNat) }
  else
    { c with sr := c.sr &&& (0xFF ^^^ (1 <<< bit.toNat)) }

/-- `Cpu::update_status`: Zero from `value == 0`, Negative from
`(value as i8) < 0`, i.e. bit 7 of the byte `value`. -/
def update_status (c : Cpu β) (value : Nat) : Cpu β :=
  (c.set_status .Zero (value == 0)).set_status .Negative
    (decide (0x80 ≤ value % 0x100))

/-- `Cpu::update_ac`. -/
def update_ac (c : Cpu β) : Cpu β := c.update_status c.ac

/-- `Cpu::update_x`. -/
def update_x (c : Cpu β) : Cpu β := c.update_status c.x

/-- `Cpu::update_y`. -/
def update_y (c : Cpu β) : Cpu β := c.update_status c.y

/-- `Cpu::reset`: program counter from the little-endian pair at
0xFFFC, status register forced to 0x34.  All other registers and the
bus are untouched. -/
def reset [Backend β] (c : Cpu β) : Option (Cpu β) :=
  (c.bus.read_u16 0xFFFC).map fun pc => { c with pc := pc, sr := 0x34 }

/-- `Cpu::resolve_address` of src/cpu.rs.  `none` models the panics:
Immediate/Accumulator modes, bus failures inside Indirect dereferences,
and overflow of the unchecked `u16` additions in AbsoluteX, AbsoluteY,
IndirectY and Relative.  The `overflowing_add` calls of IndirectX,
ZeroPageX and ZeroPageY wrap modulo 256. -/
def resolve_address [Backend β] (c : Cpu β) (i : Instruction) :
    Option Nat :=
  match i.opcode.addressing with
  | .Absolute => some i.operand
  | .AbsoluteX => chkAdd16 i.operand c.x
  | .AbsoluteY => chkAdd16 i.operand c.y
  | .Indirect => c.bus.read_u16 i.operand
  | .IndirectX => c.bus.read_u16 (wrapAdd8 i.operand c.x)
  | .IndirectY => (c.bus.read_u16 i.operand).bind fun v => chkAdd16 v c.y
  | .ZeroPage => some i.operand
  | .ZeroPageX => some (wrapAdd8 i.operand c.x)
  | .ZeroPageY => some (wrapAdd8 i.operand c.y)
  | .Relative => chkAdd16 c.pc (signExt8 i.operand)
  | _ => none

/-- `Cpu::resolve_operand`: the immediate byte for Immediate mode, a
bus read at the resolved address otherwise. -/
def resolve_operand [Backend β] (c : Cpu β) (i : Instruction) :
    Option Nat :=
  match i.opcode.addressing with
  | .Immediate => some (i.operand % 0x100)
  | _ => (c.resolve_address i).bind fun addr => c.bus.read addr

/-- `Cpu::branch`: `pc += operand as u8 as i8 as i16 as u16`, a checked
`u16` addition of the sign-extended offset. -/
def branch (c : Cpu β) (i : Instruction) : Option (Cpu β) :=
  (chkAdd16 c.pc (signExt8 i.operand)).map fun pc => { c with pc := pc }

/-- `Cpu::adc`: 16-bit sum of accumulator, operand and carry-in; the
three summands are `u8`/one-bit casts so the `u16` addition cannot
overflow.  Carry from bit 8, accumulator truncated to 8 bits, NZ from
the new accumulator. -/
def adc [Backend β] (c : Cpu β) (i : Instruction) : Option (Cpu β) :=
  (c.resolve_operand i).map fun op =>
    let value16 := c.ac + op + c.status_u8 .Carry
    let c1 := c.set_status .Carry (decide (0xFF < value16))
    let c2 := { c1 with ac := value16 % 0x100 }
    c2.update_ac

/-- `Cpu::and`: accumulator AND operand, NZ from the result. -/
def and [Backend β] (c : Cpu β) (i : Instruction) : Option (Cpu β) :=
  (c.resolve_operand i).map fun op =>
    ({ c with ac := c.ac &&& op } : Cpu β).update_ac

/-- `Cpu::asl`: arithmetic shift left of the accumulator or of memory;
Carry from the old bit 7, the `u8` shift drops the high bit. -/
def asl [Backend β] (c : Cpu β) (i : Instruction) : Option (Cpu β) :=
  match i.opcode.addressing with
  | .Accumulator =>
    let c1 := c.set_status .Carry ((c.ac >>> 7) == 1)
    some ({ c1 with ac := (c1.ac <<< 1) % 0x100 } : Cpu β).update_ac
  | _ => do
    let addr ← c.resolve_address i
    let value ← c.bus.read addr
    let c1 := c.set_status .Carry ((value >>> 7) == 1)
    let value2 := (value <<< 1) % 0x100
    let bus ← c1.bus.write addr value2
    some (({ c1 with bus := bus } : Cpu β).update_status value2)

/-- `Cpu::bcc`: branch when Carry clear. -/
def bcc (c : Cpu β) (i : Instruction) : Option (Cpu β) :=
  if !c.status .Carry then c.branch i else some c

/-- `Cpu::bcs`: branch when Carry set. -/
def bcs (c : Cpu β) (i : Instruction) : Option (Cpu β) :=
  if c.status .Carry then c.branch i else some c

/-- `Cpu::beq`: branch when Zero set. -/
def beq (c : Cpu β) (i : Instruction) : Option (Cpu β) :=
  if c.status .Zero then c.branch i else some c

/-- `Cpu::bit`: Zero from `ac & operand`, Overflow from operand bit 6,
Negative from operand bit 7. -/
def bit [Backend β] (c : Cpu β) (i : Instruction) : Option (Cpu β) :=
  (c.resolve_operand i).map fun value =>
    ((c.set_status .Zero (c.ac &&& value == 0)).set_status .Overflow
        (value &&& (1 <<< 6) != 0)).set_status .Negative
      (value &&& (1 <<< 7) != 0)

/-- `Cpu::bmi`: branch when Negative set. -/
def bmi (c : Cpu β) (i : Instruction) : Option (Cpu β) :=
  if c.status .Negative then c.branch i else some c

/-- `Cpu::bne`: branch when Zero clear. -/
def bne (c : Cpu β) (i : Instruction) : Option (Cpu β) :=
  if !c.status .Zero then c.branch i else some c

/-- `Cpu::bpl`: branch when Negative clear. -/
def bpl (c : Cpu β) (i : Instruction) : Option (Cpu β) :=
  if !c.status .Negative then c.branch i else some c

/-- `Cpu::brk`: diagnostic stub, prints the CPU state and changes
nothing. -/
def brk (c : Cpu β) (_ : Instruction) : Option (Cpu β) := some c

/-- `Cpu::clc`: clear Carry. -/
def clc (c : Cpu β) (_ : Instruction) : Option (Cpu β) :=
  some (c.set_status .Carry false)

/-- `Cpu::cld`: clear Decimal. -/
def cld (c : Cpu β) (_ : Instruction) : Option (Cpu β) :=
  some (c.set_status .Decimal false)

/-- `Cpu::cli`: sets the Interrupt flag to true (as written in the
source, the inverse of the architectural CLI). -/
def cli (c : Cpu β) (_ : Instruction) : Option (Cpu β) :=
  some (c.set_status .Interrupt true)

/-- `Cpu::cmp`: Carry from `ac >= operand`, NZ from the wrapping
difference; accumulator unchanged. -/
def cmp [Backend β] (c : Cpu β) (i : Instruction) : Option (Cpu β) :=
  (c.resolve_operand i).map fun value =>
    (c.set_status .Carry (decide (value ≤ c.ac))).update_status
      (wrapSub8 c.ac value)

/-- `Cpu::cpx`. -/
def cpx [Backend β] (c : Cpu β) (i : Instruction) : Option (Cpu β) :=
  (c.resolve_operand i).map fun value =>
    (c.set_status .Carry (decide (value ≤ c.x))).update_status
      (wrapSub8 c.x value)

/-- `Cpu::cpy`. -/
def cpy [Backend β] (c : Cpu β) (i : Instruction) : Option (Cpu β) :=
  (c.resolve_operand i).map fun value =>
    (c.set_status .Carry (decide (value ≤ c.y))).update_status
      (wrapSub8 c.y value)

/-- `Cpu::dec`: wrapping decrement (`overflowing_sub`) of the byte at
the resolved address, written back, NZ from the new value. -/
def dec [Backend β] (c : Cpu β) (i : Instruction) : Option (Cpu β) := do
  let addr ← c.resolve_address i
  let v ← c.bus.read addr
  let value := wrapSub8 v 1
  let bus ← c.bus.write addr value
  some (({ c with bus := bus } : Cpu β).update_status value)

/-- `Cpu::dex`: `x -= 1`, an unchecked `u8` subtraction (panics at
x = 0 under debug assertions), then NZ from the new x. -/
def dex (c : Cpu β) (_ : Instruction) : Option (Cpu β) :=
  (chkSub8 c.x 1).map fun x => ({ c with x := x } : Cpu β).update_x

/-- `Cpu::dey` as written in the source: decrements the X register
(`x -= 1`) and derives NZ from the unchanged Y register. -/
def dey (c : Cpu β) (_ : Instruction) : Option (Cpu β) :=
  (chkSub8 c.x 1).map fun x => ({ c with x := x } : Cpu β).update_y

/-- `Cpu::jmp`: `pc = resolve_address(instruction)`. -/
def jmp [Backend β] (c : Cpu β) (i : Instruction) : Option (Cpu β) :=
  (c.resolve_address i).map fun pc => { c with pc := pc }

/-- `Cpu::execute`: dispatch on the opcode identity; the catch-all arm
panics on unimplemented identities. -/
def execute [Backend β] (c : Cpu β) (i : Instruction) : Option (Cpu β) :=
  match i.opcode.id with
  | .ADC => c.adc i
  | .AND => c.and i
  | .ASL => c.asl i
  | .BCC => c.bcc i
  | .BCS => c.bcs i
  | .BEQ => c.beq i
  | .BIT => c.bit i
  | .BMI => c.bmi i
  | .BNE => c.bne i
  | .BPL => c.bpl i
  | .BRK => c.brk i
  | .CLC => c.clc i
  | .CLD => c.cld i
  | .CLI => c.cli i
  | .CMP => c.cmp i
  | .CPX => c.cpx i
  | .CPY => c.cpy i
  | .DEC => c.dec i
  | .DEX => c.dex i
  | .DEY => c.dey i
  | .JMP => c.jmp i
  | .UNIMPL => none

/-- `Cpu::current_instruction`.  `OpCode::get` lives in the opcode
module, which is not among the provided sources; the static table is
taken as the parameter `table` (byte value to opcode metadata, `none`
modelling the fatal invalid-opcode path).  Decoding reads 0, 1 or 2
operand bytes after the opcode byte per the table's byte length. -/
def current_instruction [Backend β] (table : Nat → Option OpCode)
    (c : Cpu β) : Option Instruction := do
  let code ← c.bus.read c.pc
  let opcode ← table code
  match opcode.bytes with
  | 1 => some { opcode := opcode, operand := 0 }
  | 2 => do
    let a1 ← chkAdd16 c.pc 1
    let b ← c.bus.read a1
    some { opcode := opcode, operand := b }
  | 3 => do
    let a1 ← chkAdd16 c.pc 1
    let w ← c.bus.read_u16 a1
    some { opcode := opcode, operand := w }
  | _ => none

/-- `Cpu::step`: decode at `pc`, advance `pc` by the instruction's byte
length (a checked `u16` addition), then execute. -/
def step [Backend β] (table : Nat → Option OpCode) (c : Cpu β) :
    Option (Cpu β) := do
  let instruction ← c.current_instruction table
  let pc ← chkAdd16 c.pc instruction.opcode.bytes
  ({ c with pc := pc } : Cpu β).execute instruction

end Cpu

/-! Helper lemmas about the status-register bit manipulation. -/

theorem getBit_eq_testBit (x b : Nat) :
    (x >>> b) &&& 1 = if x.testBit b then 1 else 0 := by
  rw [Nat.and_one_is_mod, Nat.shiftRight_eq_div_pow]
  rcases Nat.mod_two_eq_zero_or_one (x / 2 ^ b) with h | h <;>
    simp [Nat.testBit_to_div_mod, h]

theorem testBit_set_true (s b b' : Nat) :
    (s ||| (1 <<< b)).testBit b' = (s.testBit b' || decide (b = b')) := by
  rw [Nat.one_shiftLeft, Nat.testBit_lor, Nat.testBit_two_pow]

theorem testBit_set_false (s b b' : Nat) (hb' : b' < 8) :
    (s &&& (0xFF ^^^ (1 <<< b))).testBit b' =
      (s.testBit b' && !decide (b = b')) := by
  rw [Nat.one_shiftLeft, Nat.testBit_land, Nat.testBit_xor]
  have h255 : (0xFF : Nat) = 2 ^ 8 - 1 := by norm_num
  rw [h255, Nat.testBit_two_pow_sub_one, Nat.testBit_two_pow]
  simp [hb', Bool.xor_comm]

theorem StatusBit.toNat_lt (b : StatusBit) : b.toNat < 8 := by
  cases b <;> decide

theorem StatusBit.toNat_injective {b b' : StatusBit}
    (h : b.toNat = b'.toNat) : b = b' := by
  cases b <;> cases b' <;> first | rfl | simp [StatusBit.toNat] at h

namespace Cpu

variable {β : Type}

theorem set_status_pc (c : Cpu β) (b : StatusBit) (v : Bool) :
    (c.set_status b v).pc = c.pc := by
  cases v <;> rfl

theorem set_status_ac (c : Cpu β) (b : StatusBit) (v : Bool) :
    (c.set_status b v).ac = c.ac := by
  cases v <;> rfl

theorem set_status_x (c : Cpu β) (b : StatusBit) (v : Bool) :
    (c.set_status b v).x = c.x := by
  cases v <;> rfl

theorem set_status_y (c : Cpu β) (b : StatusBit) (v : Bool) :
    (c.set_status b v).y = c.y := by
  cases v <;> rfl

theorem set_status_sp (c : Cpu β) (b : StatusBit) (v : Bool) :
    (c.set_status b v).sp = c.sp := by
  cases v <;> rfl

theorem set_status_bus (c : Cpu β) (b : StatusBit) (v : Bool) :
    (c.set_status b v).bus = c.bus := by
  cases v <;> rfl

theorem set_status_status_u8 (c : Cpu β) (b b' : StatusBit) (v : Bool) :
    (c.set_status b v).status_u8 b' =
      if b' = b then (if v then 1 else 0) else c.status_u8 b' := by
  have hinj : (decide (b.toNat = b'.toNat)) = decide (b' = b) := by
    rcases Decidable.em (b' = b) with h | h
    · subst h; simp
    · have : ¬ b.toNat = b'.toNat := fun hc =>
        h (StatusBit.toNat_injective hc).symm
      simp [h, this]
  cases v <;>
    simp only [Cpu.set_status, Cpu.status_u8, if_true, if_false,
      Bool.false_eq_true, ite_true, ite_false] <;>
    rcases Decidable.em (b' = b) with h | h
  · rw [getBit_eq_testBit, testBit_set_false _ _ _ (StatusBit.toNat_lt b')]
    simp [h, hinj]
  · rw [getBit_eq_testBit, testBit_set_false _ _ _ (StatusBit.toNat_lt b')]
    simp [h, hinj]
    rw [← Nat.and_one_is_mod, getBit_eq_testBit]
  · rw [getBit_eq_testBit, testBit_set_true]
    simp [h, hinj]
  · rw [getBit_eq_testBit, testBit_set_true]
    simp [h, hinj]
    rw [← Nat.and_one_is_mod, getBit_eq_testBit]

theorem update_status_pc (c : Cpu β) (value : Nat) :
    (c.update_status value).pc = c.pc := by
  simp [Cpu.update_status, set_status_pc]

theorem update_status_ac (c : Cpu β) (value : Nat) :
    (c.update_status value).ac = c.ac := by
  simp [Cpu.update_status, set_status_ac]

theorem update_status_x (c : Cpu β) (value : Nat) :
    (c.update_status value).x = c.x := by
  simp [Cpu.update_status, set_status_x]

theorem update_status_y (c : Cpu β) (value : Nat) :
    (c.update_status value).y = c.y := by
  simp [Cpu.update_status, set_status_y]

theorem update_status_sp (c : Cpu β) (value : Nat) :
    (c.update_status value).sp = c.sp := by
  simp [Cpu.update_status, set_status_sp]

theorem update_status_bus (c : Cpu β) (value : Nat) :
    (c.update_status value).bus = c.bus := by
  simp [Cpu.update_status, set_status_bus]

theorem update_status_status_u8 (c : Cpu β) (value : Nat) (b : StatusBit) :
    (c.update_status value).status_u8 b =
      if b = .Negative then (if 0x80 ≤ value % 0x100 then 1 else 0)
      else if b = .Zero then (if value = 0 then 1 else 0)
      else c.status_u8 b := by
  simp only [Cpu.update_status, set_status_status_u8]
  rcases Decidable.em (b = StatusBit.Negative) with h | h <;>
    rcases Decidable.em (b = StatusBit.Zero) with h2 | h2 <;>
      simp_all

end Cpu

/-! Concrete backend fixtures used to evaluate the bus and CPU on
specific inputs. -/

/-- Minimal `Backend` implementation: every read returns the requested
local offset (low byte), writes change nothing.  Reads back the offset
the bus delegated, making address translation observable. -/
structure Echo where
  sz : Nat
deriving DecidableEq

instance : Backend Echo where
  size b := b.sz
  read _ off := some (off % 0x100)
  write b _ _ := some b

/-- Backend following the RAM backend of src/memory/ram.rs: a byte
array indexed by the local offset; indexing past the end panics
(`none`), as a Rust array index does.  The array length is a parameter
here (the concrete backend is an out-of-scope collaborator; src uses
0x8000). -/
structure Ram where
  data : List Nat
deriving DecidableEq

instance : Backend Ram where
  size r := r.data.length
  read r off := r.data[off]?
  write r off v :=
    if off < r.data.length then some ⟨r.data.set off v⟩ else none

/-- A one-byte Echo backend attached at address 0. -/
def echo1Bus : Bus Echo :=
  Bus.attach Bus.new { backend := Echo.mk 1, name := "mem", start := 0, endAddr := 1 }

/-- A two-byte Echo backend attached at address 0. -/
def echo2Bus : Bus Echo :=
  Bus.attach Bus.new { backend := Echo.mk 2, name := "mem", start := 0, endAddr := 2 }

/-- CPU fixture for register-only instructions: X = 5, Y = 7, all else
zero, empty bus. -/
def regCpu : Cpu Echo :=
  { pc := 0x10, ac := 0, x := 5, y := 7, sp := 0, sr := 0, bus := ⟨[]⟩ }

/-- A DEY instruction as decoded (the handler ignores the operand and
addressing mode). -/
def deyInst : Instruction := { opcode := ⟨.DEY, .Accumulator, 1⟩, operand := 0 }

/-- C1: the claim puts the inclusive end of an entry with start s and
backend size n at s + n - 1.  The code stores end = start + size, so a
size-1 backend attached at 0 gets the inclusive range 0..1: `BusEntry.new`
yields endAddr = 1, and `Bus.read` at address 1 = start + size, which the
claim places outside every range (so it must fail fatally), instead
succeeds and delegates to the backend at the out-of-range offset 1. -/
theorem bus_entry_range_off_by_one :
    BusEntry.new (Echo.mk 1) "mem" 0 =
      some { backend := Echo.mk 1, name := "mem", start := 0, endAddr := 1 } ∧
    echo1Bus.read 1 = some 1 := by
  exact ⟨rfl, rfl⟩

/-- C2: executing the DEY handler on X = 5, Y = 7 leaves Y at 7 and
decrements X to 4 (flags are derived from the unchanged Y); the claim
says DEY decrements Y by 1. -/
theorem dey_decrements_x_not_y :
    ∃ c2, Cpu.dey regCpu deyInst = some c2 ∧
      c2.x = 4 ∧ c2.y = 7 ∧ c2.ac = 0 ∧ c2.sr = 0 := by
  exact ⟨_, rfl, rfl, rfl, rfl, rfl⟩

/-- C3: with a size-2 backend at start 0 the code stores end = 2, so at
address 1 = start + size - 1 (the last byte of the claimed range, where
the claim requires read_u16 and write_u16 to fail fatally) both
succeed, the second byte access being delegated at offset 2, past the
backend's last valid offset: read_u16 1 composes offsets 1 and 2 into
0x0201 and write_u16 1 returns the updated bus.  The code's end check
only rejects address 2 = start + size. -/
theorem read_u16_end_check_off_by_one :
    BusEntry.new (Echo.mk 2) "mem" 0 =
      some { backend := Echo.mk 2, name := "mem", start := 0, endAddr := 2 } ∧
    echo2Bus.read_u16 1 = some 0x0201 ∧
    echo2Bus.write_u16 1 0xABCD = some echo2Bus ∧
    echo2Bus.read_u16 2 = none := by
  exact ⟨rfl, rfl, rfl, rfl⟩

/-- CPU fixture with X = Y = 1 for the absolute-indexed overflow. -/
def idxCpu : Cpu Echo :=
  { pc := 0, ac := 0, x := 1, y := 1, sp := 0, sr := 0, bus := ⟨[]⟩ }

/-- C4: the claim says AbsoluteX/AbsoluteY resolution wraps modulo
65536 and never fails.  The code adds with an unchecked `u16` `+`, so
operand 0xFFFF with index register 1 overflows and is fatal (debug
assertions) instead of wrapping to 0x0000. -/
theorem absolute_indexed_overflow_fatal :
    Cpu.resolve_address idxCpu { opcode := ⟨.AND, .AbsoluteX, 3⟩, operand := 0xFFFF } = none ∧
    Cpu.resolve_address idxCpu { opcode := ⟨.AND, .AbsoluteY, 3⟩, operand := 0xFFFF } = none := by
  exact ⟨rfl, rfl⟩

/-- Program fixture for the relative-branch example: the bytes 0x90 0xFB
(a 2-byte relative BCC with operand 0xFB = -5) in a RAM backend attached
at 0x8000 (endAddr as `BusEntry.new` computes it). -/
def branchCpu : Cpu Ram :=
  { pc := 0x8000, ac := 0, x := 0, y := 0, sp := 0, sr := 0,
    bus := ⟨[{ backend := Ram.mk [0x90, 0xFB], name := "prog", start := 0x8000,
               endAddr := 0x8002 }]⟩ }

/-- Opcode-table fixture mapping byte 0x90 to a 2-byte relative BCC
(the static table lives in the opcode module, not among the provided
sources; `Cpu.step` takes it as a parameter). -/
def branchTable : Nat → Option OpCode :=
  fun b => if b = 0x90 then some ⟨.BCC, .Relative, 2⟩ else none

/-- C5: the spec's own example — a taken 2-byte branch fetched at
0x8000 with operand 0xFB (-5), post-fetch pc = 0x8002 — must set
pc = 0x7FFD by 16-bit wraparound.  The code's `pc += operand as u16`
is an unchecked `u16` addition; 0x8002 + 0xFFFB overflows, so the whole
step is fatal (debug assertions) instead of producing 0x7FFD.  Both the
full `step` at 0x8000 and the `branch` helper on the post-fetch state
fail. -/
theorem taken_backward_branch_overflow_fatal :
    Cpu.step branchTable branchCpu = none ∧
    Cpu.branch ({ branchCpu with pc := 0x8002 } : Cpu Ram)
      { opcode := ⟨.BCC, .Relative, 2⟩, operand := 0xFB } = none := by
  exact ⟨rfl, rfl⟩

/-! Small auxiliary lemmas used by the confirmed claims. -/

theorem Cpu.status_u8_with_ac {β : Type} (c : Cpu β) (a : Nat) (b : StatusBit) :
    ({ c with ac := a } : Cpu β).status_u8 b = c.status_u8 b := rfl

theorem Cpu.status_eq_one_iff {β : Type} (c : Cpu β) (b : StatusBit) :
    c.status b = true ↔ c.status_u8 b = 1 := by
  simp [Cpu.status]

/-- C6: in ZeroPageX, ZeroPageY and IndirectX modes the zero-page
pointer is the modular 8-bit sum of the operand's low byte and the
index register — it never exceeds 0xFF and its computation never
fails; ZeroPageX/ZeroPageY resolution is total, IndirectX passes the
wrapped pointer to the 16-bit dereference.  Operand 0xFF with index
register 0x02 resolves to 0x01. -/
theorem zero_page_indexing_wraps_mod_256 {β : Type} [Backend β]
    (c : Cpu β) (id : OpId) (n o : Nat) :
    Cpu.resolve_address c { opcode := ⟨id, .ZeroPageX, n⟩, operand := o } =
      some ((o % 0x100 + c.x % 0x100) % 0x100) ∧
    Cpu.resolve_address c { opcode := ⟨id, .ZeroPageY, n⟩, operand := o } =
      some ((o % 0x100 + c.y % 0x100) % 0x100) ∧
    Cpu.resolve_address c { opcode := ⟨id, .IndirectX, n⟩, operand := o } =
      c.bus.read_u16 ((o % 0x100 + c.x % 0x100) % 0x100) ∧
    (o % 0x100 + c.x % 0x100) % 0x100 ≤ 0xFF ∧
    (o % 0x100 + c.y % 0x100) % 0x100 ≤ 0xFF ∧
    Cpu.resolve_address ({ idxCpu with x := 2 } : Cpu Echo)
      { opcode := ⟨.AND, .ZeroPageX, 2⟩, operand := 0xFF } = some 0x01 := by
  refine ⟨rfl, rfl, rfl, ?_, ?_, rfl⟩ <;>
    exact Nat.le_of_lt_succ (Nat.mod_lt _ (by norm_num))

/-- C7: for every accumulator value, resolved operand byte and incoming
Carry flag, ADC forms the 16-bit sum of accumulator, operand and Carry,
sets Carry iff the sum exceeds 0xFF, truncates the sum into the
accumulator, and derives Zero/Negative from the new accumulator byte. -/
theorem adc_carry_and_nz {β : Type} [Backend β] (c : Cpu β)
    (i : Instruction) (o : Nat) (h : c.resolve_operand i = some o) :
    ∃ c2, Cpu.adc c i = some c2 ∧
      c2.ac = (c.ac + o + c.status_u8 .Carry) % 0x100 ∧
      (c2.status .Carry = true ↔ 0xFF < c.ac + o + c.status_u8 .Carry) ∧
      (c2.status .Zero = true ↔ (c.ac + o + c.status_u8 .Carry) % 0x100 = 0) ∧
      (c2.status .Negative = true ↔
        0x80 ≤ (c.ac + o + c.status_u8 .Carry) % 0x100) := by
  refine ⟨Cpu.update_ac
      { c.set_status .Carry
          (decide (0xFF < c.ac + o + c.status_u8 .Carry)) with
        ac := (c.ac + o + c.status_u8 .Carry) % 0x100 },
    ?_, ?_, ?_, ?_, ?_⟩
  · rw [Cpu.adc, h]
    rfl
  · rw [Cpu.update_ac, Cpu.update_status_ac]
  · rw [Cpu.update_ac, Cpu.status_eq_one_iff, Cpu.update_status_status_u8]
    simp only [Cpu.status_u8_with_ac, Cpu.set_status_status_u8]
    by_cases hc : 0xFF < c.ac + o + c.status_u8 .Carry <;> simp [hc]
  · rw [Cpu.update_ac, Cpu.status_eq_one_iff, Cpu.update_status_status_u8]
    by_cases hz : (c.ac + o + c.status_u8 .Carry) % 0x100 = 0 <;> simp [hz]
  · rw [Cpu.update_ac, Cpu.status_eq_one_iff, Cpu.update_status_status_u8]
    by_cases hn : 0x80 ≤ (c.ac + o + c.status_u8 .Carry) % 0x100 <;>
      simp [hn, Nat.mod_mod_of_dvd]

/-- CPU fixture for the ADC example: accumulator 0xFF, Carry clear. -/
def adcCpu : Cpu Echo :=
  { pc := 0, ac := 0xFF, x := 0, y := 0, sp := 0, sr := 0, bus := ⟨[]⟩ }

/-- C7 witness: AC = 0xFF, operand 0x01, Carry clear gives AC = 0x00
with Carry and Zero set. -/
theorem adc_carry_and_nz_witness :
    ∃ c2, Cpu.adc adcCpu { opcode := ⟨.ADC, .Immediate, 2⟩, operand := 1 } =
        some c2 ∧
      c2.ac = 0 ∧ c2.status .Carry = true ∧ c2.status .Zero = true := by
  obtain ⟨c2, h1, h2, h3, h4, _⟩ := adc_carry_and_nz adcCpu
    { opcode := ⟨.ADC, .Immediate, 2⟩, operand := 1 } 1 (by decide)
  exact ⟨c2, h1, h2.trans (by decide), h3.mpr (by decide), h4.mpr (by decide)⟩

/-- C8: the CLI handler sets the Interrupt flag to true (the inverted
behavior relative to the architectural mnemonic) whatever its prior
value, and leaves every other flag and every register unchanged. -/
theorem cli_sets_interrupt_only {β : Type} [Backend β] (c : Cpu β)
    (i : Instruction) :
    ∃ c2, Cpu.cli c i = some c2 ∧
      c2.status .Interrupt = true ∧
      (∀ b : StatusBit, b ≠ .Interrupt → c2.status b = c.status b) ∧
      c2.pc = c.pc ∧ c2.ac = c.ac ∧ c2.x = c.x ∧ c2.y = c.y ∧
      c2.sp = c.sp ∧ c2.bus = c.bus := by
  refine ⟨c.set_status .Interrupt true, rfl, ?_, ?_,
    Cpu.set_status_pc c _ _, Cpu.set_status_ac c _ _, Cpu.set_status_x c _ _,
    Cpu.set_status_y c _ _, Cpu.set_status_sp c _ _, Cpu.set_status_bus c _ _⟩
  · rw [Cpu.status_eq_one_iff, Cpu.set_status_status_u8]
    simp
  · intro b hb
    simp only [Cpu.status, Cpu.set_status_status_u8, hb, if_false]

/-- The CLI instruction fixture (the handler ignores the operand). -/
def cliInst : Instruction := { opcode := ⟨.CLI, .Accumulator, 1⟩, operand := 0 }

/-- C8 witness: CLI on the concrete register fixture. -/
theorem cli_sets_interrupt_only_witness :
    ∃ c2, Cpu.cli regCpu cliInst = some c2 ∧
      c2.status .Interrupt = true ∧
      (∀ b : StatusBit, b ≠ .Interrupt → c2.status b = regCpu.status b) ∧
      c2.pc = regCpu.pc ∧ c2.ac = regCpu.ac ∧ c2.x = regCpu.x ∧
      c2.y = regCpu.y ∧ c2.sp = regCpu.sp ∧ c2.bus = regCpu.bus :=
  cli_sets_interrupt_only regCpu cliInst

/-- C9: when the reset vector at 0xFFFC-0xFFFD is readable, reset only
loads the program counter from it (little-endian, via read_u16) and
forces the status register to 0x34; accumulator, X, Y, stack pointer
and the whole bus state are untouched. -/
theorem reset_loads_vector_and_status {β : Type} [Backend β] (c : Cpu β)
    (v : Nat) (h : c.bus.read_u16 0xFFFC = some v) :
    Cpu.reset c = some { pc := v, ac := c.ac, x := c.x, y := c.y,
                         sp := c.sp, sr := 0x34, bus := c.bus } := by
  unfold Cpu.reset
  rw [h]
  rfl

/-- CPU fixture whose bus maps 0xFF00-0xFFFE to an Echo backend, so the
reset vector reads 0xFC, 0xFD: reset must load pc = 0xFDFC. -/
def vecCpu : Cpu Echo :=
  { pc := 0x1234, ac := 1, x := 2, y := 3, sp := 4, sr := 0,
    bus := ⟨[{ backend := Echo.mk 0xFE, name := "vec", start := 0xFF00,
               endAddr := 0xFFFE }]⟩ }

/-- C9 witness: reset on the concrete fixture keeps AC/X/Y/SP and the
bus, loads pc = 0xFDFC and sets status 0x34. -/
theorem reset_loads_vector_and_status_witness :
    Cpu.reset vecCpu = some { pc := 0xFDFC, ac := 1, x := 2, y := 3,
                              sp := 4, sr := 0x34, bus := vecCpu.bus } :=
  reset_loads_vector_and_status vecCpu 0xFDFC (by decide)

/-- Fixtures for the DEX/DEY underflow claim and the DEC contrast. -/
def dexCpu1 : Cpu Echo :=
  { pc := 0, ac := 0, x := 1, y := 9, sp := 0, sr := 0, bus := ⟨[]⟩ }

def dexCpu0 : Cpu Echo := { dexCpu1 with x := 0 }

def dexInst : Instruction := { opcode := ⟨.DEX, .Accumulator, 1⟩, operand := 0 }

/-- A one-byte RAM holding 0, mapped at address 0, with a ZeroPage DEC. -/
def decCpu : Cpu Ram :=
  { pc := 0, ac := 0, x := 0, y := 0, sp := 0, sr := 0,
    bus := ⟨[{ backend := Ram.mk [0], name := "zp", start := 0, endAddr := 1 }]⟩ }

def decInst : Instruction := { opcode := ⟨.DEC, .ZeroPage, 2⟩, operand := 0 }

/-- C10: DEX (and the DEY handler, which decrements X as written) uses
the unchecked `u8` subtraction `x -= 1`: total with result x - 1
whenever x > 0, fatal underflow (debug assertions) at x = 0 — unlike
DEC, whose `overflowing_sub` wraps the memory byte 0x00 to 0xFF. -/
theorem dex_dey_underflow_fatal {β : Type} [Backend β] (c : Cpu β)
    (i : Instruction) :
    (0 < c.x → ∃ c2, Cpu.dex c i = some c2 ∧ c2.x = c.x - 1 ∧ c2.y = c.y) ∧
    (c.x = 0 → Cpu.dex c i = none) ∧
    (0 < c.x → ∃ c2, Cpu.dey c i = some c2 ∧ c2.x = c.x - 1 ∧ c2.y = c.y) ∧
    (c.x = 0 → Cpu.dey c i = none) ∧
    (Bus.read decCpu.bus 0 = some 0 ∧
      ∃ c3, Cpu.dec decCpu decInst = some c3 ∧ c3.bus.read 0 = some 0xFF) := by
  have hsub : ∀ a : Nat, 0 < a → chkSub8 a 1 = some (a - 1) := by
    intro a ha
    rw [chkSub8, if_pos (show 1 ≤ a from ha)]
  have hsub0 : chkSub8 0 1 = none := by simp [chkSub8]
  refine ⟨?_, ?_, ?_, ?_, rfl, ?_⟩
  · intro hx
    refine ⟨Cpu.update_x ({ c with x := c.x - 1 } : Cpu β), ?_, ?_, ?_⟩
    · rw [Cpu.dex, hsub _ hx]
      rfl
    · rw [Cpu.update_x, Cpu.update_status_x]
    · rw [Cpu.update_x, Cpu.update_status_y]
  · intro hx
    rw [Cpu.dex, hx, hsub0]
    rfl
  · intro hx
    refine ⟨Cpu.update_y ({ c with x := c.x - 1 } : Cpu β), ?_, ?_, ?_⟩
    · rw [Cpu.dey, hsub _ hx]
      rfl
    · rw [Cpu.update_y, Cpu.update_status_x]
    · rw [Cpu.update_y, Cpu.update_status_y]
  · intro hx
    rw [Cpu.dey, hx, hsub0]
    rfl
  · exact ⟨_, rfl, rfl⟩

/-- C10 witness: DEX at x = 1 yields x = 0 with y kept; at x = 0 it is
fatal. -/
theorem dex_dey_underflow_fatal_witness :
    (∃ c2, Cpu.dex dexCpu1 dexInst = some c2 ∧ c2.x = 0 ∧ c2.y = 9) ∧
    Cpu.dex dexCpu0 dexInst = none := by
  refine ⟨?_, (dex_dey_underflow_fatal dexCpu0 dexInst).2.1 rfl⟩
  obtain ⟨c2, h1, h2, h3⟩ :=
    (dex_dey_underflow_fatal dexCpu1 dexInst).1 (by decide)
  exact ⟨c2, h1, h2, h3⟩
